import Mathlib

/-!
Shallow embedding of `texfigure/texfigure.py` (classes `Figure`, `MultiFigure`,
`Manager`) and proofs checking the natural-language specification against it.

Modelling conventions:
* Python strings are `String`; `os.path` helpers (`basename`, `dirname`,
  `splitext`, `join` for two POSIX components) are translated below.
* `os.path.abspath` resolves relative paths against the process working
  directory; the embedding takes the already-absolute path as input, since no
  verified property depends on that resolution.
* numpy `object` arrays are modelled by a heap (`Heap`) of row-major flat
  arrays of `Option Figure` slots, with `NDView` playing the role of an
  ndarray view (base array id, row offset, shape).  Basic slicing of a 2-D
  array selects rows and returns a view sharing the base array, as in numpy.
* Python exceptions are `Except PyErr`; mutation of `self` is explicit state
  passing (the mutated `Manager`/`Heap` is returned alongside the result, and
  is returned unchanged when an exception propagates before any mutation).
* The `pytex` collaborator and the backend save routines (`fig.savefig`,
  &c.) are external effects; they are modelled as function parameters
  returning `Except PyErr`, so that failing external calls are expressible.
-/

set_option maxHeartbeats 1000000

/-- Python exception values raised by the embedded code. -/
inductive PyErr where
  | typeError (msg : String)
  | valueError (msg : String)
  | keyError (msg : String)
  | indexError (msg : String)
  | externalError (msg : String)
deriving DecidableEq

/-- Python `str.replace('_', '-')`: single-character pattern and replacement,
so it is the per-character map. -/
def replaceUnderscores (s : String) : String :=
  String.mk (s.toList.map (fun c => if c = '_' then '-' else c))

/-- `os.path.basename` (POSIX): everything after the last slash. -/
def basename (p : String) : String :=
  String.mk ((p.toList.reverse.takeWhile (fun c => c != '/')).reverse)

/-- `os.path.dirname` (POSIX): the prefix up to the last slash, with trailing
slashes stripped unless the prefix is all slashes; empty when there is no
slash. -/
def dirname (p : String) : String :=
  let cs := p.toList
  let tail := cs.reverse.takeWhile (fun c => c != '/')
  if tail.length = cs.length then ""
  else
    let head := cs.take (cs.length - tail.length)
    if head.all (fun c => c == '/') then String.mk head
    else String.mk ((head.reverse.dropWhile (fun c => c == '/')).reverse)

/-- Index of the last occurrence of a character, if any. -/
def rfindIdx (cs : List Char) (c : Char) : Option Nat :=
  ((cs.enum.filter (fun p => p.2 == c)).map (fun p => p.1)).getLast?

/-- `os.path.splitext` (POSIX): split at the last dot, provided it lies after
the last slash and the basename has a non-dot character before it (leading
dots do not start an extension). -/
def splitext (p : String) : String × String :=
  let cs := p.toList
  let sepIdx := rfindIdx cs '/'
  let dotIdx := rfindIdx cs '.'
  match dotIdx with
  | none => (p, "")
  | some d =>
    let fstart := match sepIdx with | none => 0 | some s => s + 1
    if (match sepIdx with | none => true | some s => decide (s < d)) then
      if (List.range (d - fstart)).any (fun k => cs.getD (fstart + k) '.' != '.') then
        (String.mk (cs.take d), String.mk (cs.drop d))
      else (p, "")
    else (p, "")

/-- `os.path.join` (POSIX) for two components. -/
def osPathJoin (a b : String) : String :=
  if b.startsWith "/" then b
  else if a = "" then b
  else if a.endsWith "/" then a ++ b
  else a ++ "/" ++ b

/-- The plain-data attributes set by `Figure.__init__`
(`texfigure.py:128-150`).  The `extension_mapping` of bound rendering methods
and the rendering templates are not needed by any verified property. -/
structure Figure where
  reference : String
  file_name : String
  fname : String
  base_dir : String
  caption : String
  label : String
  placement : String
  figure_width : String
  subfig_width : String
  subfig_placement : String
deriving DecidableEq

/-- `Figure.__init__(file_name, reference=None)`.  `file_name` is the result
of `os.path.abspath` (see module comment).  A falsy `reference` (absent or
the empty string) is replaced by `os.path.splitext(os.path.basename(fn))[1]`,
i.e. the extension; underscores are then rewritten to hyphens. -/
def figureInit (file_name : String) (reference : Option String) : Figure :=
  let ref0 :=
    match reference with
    | none => (splitext (basename file_name)).2
    | some r => if r = "" then (splitext (basename file_name)).2 else r
  let ref := replaceUnderscores ref0
  { reference := ref
    file_name := file_name
    fname := basename file_name
    base_dir := dirname file_name ++ "/"
    caption := "Figure " ++ ref
    label := "fig:" ++ ref
    placement := "h"
    figure_width := "0.95\\columnwidth"
    subfig_width := "0.45\\columnwidth"
    subfig_placement := "b" }

/-- A grid slot of a `MultiFigure`: `None` or a `Figure` (the ndarray holds
Python objects; `None` is falsy, a `Figure` instance is truthy). -/
abbrev Slot := Option Figure

/-- A numpy view of a 2-D object array: base array id in the heap, row
offset into the base, and the view's shape.  Row slicing keeps the column
count, so the base and the view agree on `ncols`. -/
structure NDView where
  base : Nat
  rowOff : Nat
  nrows : Nat
  ncols : Nat
deriving DecidableEq

/-- The store of allocated backing arrays, each kept in row-major flat form. -/
abbrev Heap := List (List Slot)

/-- `arr.size` of the view: number of elements. -/
def viewSize (v : NDView) : Nat := v.nrows * v.ncols

/-- Flat index `i` of the view, as an index into the base array. -/
def baseIndex (v : NDView) (i : Nat) : Nat := v.rowOff * v.ncols + i

/-- The base array of a view. -/
def heapArr (h : Heap) (v : NDView) : List Slot := h.getD v.base []

/-- `arr.flat[i]` through a view: `none` out of range. -/
def readFlat (h : Heap) (v : NDView) (i : Nat) : Slot :=
  if i < viewSize v then (heapArr h v).getD (baseIndex v i) none else none

/-- `arr.flat[i] = fig` through a view: writes the base array in the heap. -/
def writeFlat (h : Heap) (v : NDView) (i : Nat) (f : Figure) : Heap :=
  h.set v.base ((heapArr h v).set (baseIndex v i) (some f))

/-- `np.logical_not(self.figures.flat).nonzero()[0]`: the flat indices of the
falsy (empty) slots, in increasing order. -/
def emptyIndices (h : Heap) (v : NDView) : List Nat :=
  (List.range (viewSize v)).filter (fun i => (readFlat h v i).isNone)

/-- The attributes of a `MultiFigure` (`texfigure.py:278-291`); the ndarray
`figures` is the `view` into the heap. -/
structure MultiFigure where
  view : NDView
  reference : String
  caption : String
  label : String
  placement : String
  frontmatter : String
deriving DecidableEq

/-- `MultiFigure.__init__(nrows, ncols, reference='', continuation=False)`:
allocates a fresh all-`None` array and sets the textual attributes;
`continuation` only appends `\ContinuedFloat` to the frontmatter. -/
def MultiFigure.init (h : Heap) (nrows ncols : Nat) (reference : String)
    (continuation : Bool) : Heap × MultiFigure :=
  let fm := if continuation then "\\centering\n\\ContinuedFloat" else "\\centering"
  let arr : List Slot := List.replicate (nrows * ncols) none
  (h ++ [arr],
   { view := { base := h.length, rowOff := 0, nrows := nrows, ncols := ncols }
     reference := reference
     caption := "MultiFigure " ++ reference
     label := "fig:" ++ reference
     placement := "H"
     frontmatter := fm })

/-- Whether a `MultiFigure` was built as a continuation: readable from its
frontmatter, the only place `__init__` records the flag. -/
def MultiFigure.continuation (m : MultiFigure) : Bool :=
  m.frontmatter = "\\centering\n\\ContinuedFloat"

/-- `key.start is None or key.start == 0` in `__getitem__`. -/
def sliceStartsAtZero : Option Nat → Bool
  | none => true
  | some a => decide (a = 0)

/-- `key.stop is None or key.stop == self.figures.size` in `__getitem__`. -/
def sliceStopsAtEnd (stop : Option Nat) (size : Nat) : Bool :=
  match stop with
  | none => true
  | some b => decide (b = size)

/-- The slice branch of `MultiFigure.__getitem__` (`texfigure.py:306-325`).
`self.figures[a:b]` is numpy basic slicing of a 2-D array: it selects rows
`a..b-1` (clipped) and returns a *view* of the base array.  The constructor
call allocates a fresh array that is immediately orphaned when `.figures`
is replaced by the view.  Slice bounds are modelled as non-negative, the
only form the program uses. -/
def sliceMF (h : Heap) (m : MultiFigure) (start stop : Option Nat) :
    Heap × MultiFigure :=
  let cont := !sliceStartsAtZero start
  let newRef := if cont then m.reference ++ "-c" else m.reference
  let effStart := min (start.getD 0) m.view.nrows
  let effStop := min (stop.getD m.view.nrows) m.view.nrows
  let newView : NDView :=
    { base := m.view.base, rowOff := m.view.rowOff + effStart
      nrows := effStop - effStart, ncols := m.view.ncols }
  let p := MultiFigure.init h (effStop - effStart) m.view.ncols newRef cont
  let caption := if sliceStopsAtEnd stop (viewSize m.view) then m.caption else ""
  (p.1, { p.2 with view := newView, caption := caption })

/-- An argument passed to `MultiFigure.append`: a `texfigure.Figure`, or some
other Python object (failing `isinstance(figure, Figure)`). -/
inductive PyObj where
  | figure (f : Figure)
  | other (n : Nat)

/-- `MultiFigure.append` (`texfigure.py:330-344`): type check, then write the
first falsy flat slot through the view, or raise when no slot is empty. -/
def MultiFigure.append (h : Heap) (m : MultiFigure) (x : PyObj) :
    Except PyErr Heap :=
  match x with
  | .other _ =>
      .error (.typeError "Only texfigure.Figures can be appended to a MultiFigure")
  | .figure f =>
      match emptyIndices h m.view with
      | i :: _ => .ok (writeFlat h m.view i f)
      | [] => .error (.valueError "This MultiFigure is full")

/-- An index passed to `MultiFigure.__getitem__`. -/
inductive MFKey where
  | int (i : Nat)
  | slice (start stop : Option Nat)
  | other

/-- Result of `MultiFigure.__getitem__`. -/
inductive MFItem where
  | fig (s : Slot)
  | sub (m : MultiFigure)

/-- `MultiFigure.__getitem__` (`texfigure.py:298-328`): integers index the
flat iterator, slices delegate to `sliceMF`, anything else raises
`KeyError`. -/
def MultiFigure.getitem (h : Heap) (m : MultiFigure) (k : MFKey) :
    Except PyErr (Heap × MFItem) :=
  match k with
  | .int i =>
      if i < viewSize m.view then .ok (h, .fig (readFlat h m.view i))
      else .error (.indexError "index out of range for MultiFigure.figures.flat")
  | .slice a b =>
      let p := sliceMF h m a b
      .ok (p.1, .sub p.2)
  | .other => .error (.keyError "MultiFigure only supports 1D indexing.")

set_option genSizeOfSpec false

/-- A Python value, as far as `MultiFigure.__len__` needs one: numpy's
`ndarray.size` is an `int` attribute, and calling a non-callable raises
`TypeError`. -/
inductive PyVal where
  | int (n : Nat)
  | callable (f : Unit → Except PyErr PyVal)

/-- Calling a Python value with no arguments. -/
def pyCall0 : PyVal → Except PyErr PyVal
  | .int _ => .error (.typeError "int object is not callable")
  | .callable f => f ()

/-- The `ndarray.size` attribute of `self.figures`: an `int`. -/
def ndarraySizeAttr (v : NDView) : PyVal := .int (viewSize v)

/-- `MultiFigure.__len__` (`texfigure.py:293-294`):
`return self.figures.size()` — it calls the `int` attribute `size`. -/
def MultiFigure.lenPy (m : MultiFigure) : Except PyErr PyVal :=
  pyCall0 (ndarraySizeAttr m.view)

/-- One `_figure_registry` value: `{'number': ..., 'Figure': ...}`. -/
structure RegEntry where
  number : Nat
  fig : Figure
deriving DecidableEq

/-- `OrderedDict` assignment `d[k] = v`: update in place when the key
exists, else append at the end. -/
def odSet (l : List (String × RegEntry)) (k : String) (v : RegEntry) :
    List (String × RegEntry) :=
  if l.any (fun p => p.1 == k) then
    l.map (fun p => if p.1 = k then (k, v) else p)
  else l ++ [(k, v)]

/-- `OrderedDict` lookup `d.get(k)`. -/
def odGet? (l : List (String × RegEntry)) (k : String) : Option RegEntry :=
  (l.find? (fun p => p.1 == k)).map (fun p => p.2)

/-- The Python type of an artifact passed to `Manager.save_figure`, standing
for the keys of `savefigure_functions`.  The registered backend classes are
pairwise unrelated, so `issubclass` on them is tag equality; a subclass of a
backend class carries its tag. -/
inductive PyType where
  | mplFigure
  | mayaviScene
  | ytImagePlotContainer
  | other (n : Nat)
deriving DecidableEq

/-- `issubclass(type(fig), atype)` over the representative tags. -/
def issubclass (a b : PyType) : Bool := a == b

/-- An artifact handed to `Manager.save_figure`: its Python type together
with its backend write routine (`fig.savefig(filename)` for matplotlib),
an external effect that may raise. -/
structure Artifact where
  ty : PyType
  savefig : String → Except PyErr Unit

/-- A save strategy stored in `savefigure_functions`: takes the artifact and
the target filename, returns the filename actually written. -/
abbrev SaveFn := Artifact → String → Except PyErr String

/-- `Manager._save_mpl_figure`: `fig.savefig(filename); return filename`. -/
def saveMplFigure (fig : Artifact) (filename : String) : Except PyErr String :=
  match fig.savefig filename with
  | .ok _ => .ok filename
  | .error e => .error e

/-- The `Manager` state the verified properties depend on
(`texfigure.py:395-421`).  Directory creation (`os.makedirs`) is filesystem
I/O outside the model; `fig_dir` holds the resolved figure directory.
`pytex.add_created` is the external build-tracking call. -/
structure Manager where
  number : Int
  fig_dir : String
  fig_count : Nat
  figure_registry : List (String × RegEntry)
  savefigure_functions : List (PyType × SaveFn)
  pytex_add_created : String → Except PyErr Unit

/-- `Manager.__init__`: counter starts at 1, empty registry, and
`savefigure_functions = {matplotlib.figure.Figure: self._save_mpl_figure}`
(the mayavi/yt entries are appended only when those optional backends
import, which no verified property involves). -/
def managerInit (pytex : String → Except PyErr Unit) (fig_dir : String)
    (number : Int) : Manager :=
  { number := number
    fig_dir := fig_dir
    fig_count := 1
    figure_registry := []
    savefigure_functions := [(PyType.mplFigure, saveMplFigure)]
    pytex_add_created := pytex }

/-- `Manager.make_figure_filename` (`texfigure.py:511-535`): a falsy `fname`
(absent or empty) is replaced by the
`'Chapter{}-Figure{}-{}{}'.format(number, fig_count, ref, fext)` template;
with `fullpath` the figure directory is prepended. -/
def makeFigureFilename (m : Manager) (ref : String) (fname : Option String)
    (fext : String) (fullpath : Bool) : String :=
  let f :=
    match fname with
    | some s =>
        if s = "" then
          "Chapter" ++ toString m.number ++ "-Figure" ++ toString m.fig_count
            ++ "-" ++ ref ++ fext
        else s
    | none =>
        "Chapter" ++ toString m.number ++ "-Figure" ++ toString m.fig_count
          ++ "-" ++ ref ++ fext
  if fullpath then osPathJoin m.fig_dir f else f

/-- `Manager.add_figure` (`texfigure.py:573-589`): notify `pytex`, then
record `{'number': fig_count, 'Figure': Fig}` under `ref` and increment the
counter.  A raising `pytex.add_created` leaves the state unchanged. -/
def addFigure (m : Manager) (ref : String) (F : Figure) :
    Manager × Except PyErr Unit :=
  match m.pytex_add_created F.file_name with
  | .error e => (m, .error e)
  | .ok _ =>
      ({ m with
          figure_registry := odSet m.figure_registry ref { number := m.fig_count, fig := F }
          fig_count := m.fig_count + 1 },
       .ok ())

/-- The dispatch loop of `save_figure` (`texfigure.py:630-632`): every
registered type that `type(fig)` subclasses runs, in registration order,
rebinding `fname`; there is no error case for an unmatched type. -/
def runSavefigureFunctions (fns : List (PyType × SaveFn)) (fig : Artifact)
    (fname : String) : Except PyErr String :=
  match fns with
  | [] => .ok fname
  | (atype, f) :: rest =>
      if issubclass fig.ty atype then
        match f fig fname with
        | .error e => .error e
        | .ok fname2 => runSavefigureFunctions rest fig fname2
      else runSavefigureFunctions rest fig fname

/-- `Manager.save_figure` (`texfigure.py:591-638`).  The `fig is None`
default (`plt.gcf()`) is modelled by the caller supplying the current
figure.  The manager is returned unchanged when an exception propagates. -/
def saveFigure (m : Manager) (ref : String) (fig : Artifact)
    (fname : Option String) (fext : String) : Manager × Except PyErr Figure :=
  match runSavefigureFunctions m.savefigure_functions fig
      (makeFigureFilename m ref fname fext true) with
  | .error e => (m, .error e)
  | .ok fn2 =>
      match addFigure m ref (figureInit fn2 (some ref)) with
      | (m2, .ok _) => (m2, .ok (figureInit fn2 (some ref)))
      | (m2, .error e) => (m2, .error e)

/-- `Manager.get_figure` (`texfigure.py:640-655`):
`self._figure_registry[ref]['Figure']`, raising `KeyError` when absent. -/
def getFigure (m : Manager) (ref : String) : Except PyErr Figure :=
  match odGet? m.figure_registry ref with
  | some entry => .ok entry.fig
  | none => .error (.keyError ref)

/-- The `for ref in refs` loop of `get_multifigure`: look each reference up
and append it to the grid. -/
def appendRefs (h : Heap) (m : Manager) (mf : MultiFigure) :
    List String → Except PyErr (Heap × MultiFigure)
  | [] => .ok (h, mf)
  | r :: rs =>
      match getFigure m r with
      | .error e => .error e
      | .ok lfig =>
          match MultiFigure.append h mf (.figure lfig) with
          | .error e => .error e
          | .ok h2 => appendRefs h2 m mf rs

/-- `Manager.get_multifigure` (`texfigure.py:657-695`): reject more
references than grid slots, else build a fresh `MultiFigure` and append the
registered figures in list order. -/
def getMultifigure (h : Heap) (m : Manager) (nrows ncols : Nat)
    (refs : List String) (reference : String) :
    Except PyErr (Heap × MultiFigure) :=
  if refs.length > nrows * ncols then
    .error (.valueError
      "You can not specify more references than number of spaces in your multifigure grid.")
  else
    let p := MultiFigure.init h nrows ncols reference false
    appendRefs p.1 m p.2 refs

/-! ### Concrete states used by witnesses and counterexamples -/

/-- A concrete figure. -/
def exFigA : Figure := figureInit "/figs/a.pdf" (some "a")

/-- A concrete figure. -/
def exFigB : Figure := figureInit "/figs/b.pdf" (some "b")

/-- A concrete figure. -/
def exFigC : Figure := figureInit "/figs/c.pdf" (some "c")

/-- A concrete figure. -/
def exFigD : Figure := figureInit "/figs/d.pdf" (some "d")

/-- A heap holding one fully occupied 2×2 backing array. -/
def exHeap4 : Heap := [[some exFigA, some exFigB, some exFigC, some exFigD]]

/-- A 2×2 `MultiFigure` over `exHeap4`. -/
def exMF22 : MultiFigure :=
  { view := { base := 0, rowOff := 0, nrows := 2, ncols := 2 }
    reference := "m"
    caption := "MultiFigure m"
    label := "fig:m"
    placement := "H"
    frontmatter := "\\centering" }

/-- A heap holding a 2×1 array with the first slot filled. -/
def exHeap21 : Heap := [[some exFigA, none]]

/-- A 2×1 `MultiFigure` over `exHeap21`. -/
def exMF21 : MultiFigure :=
  { view := { base := 0, rowOff := 0, nrows := 2, ncols := 1 }
    reference := "m"
    caption := "MultiFigure m"
    label := "fig:m"
    placement := "H"
    frontmatter := "\\centering" }

/-- A fresh manager with `number = 1` (counter at 1, empty registry) whose
`pytex.add_created` always succeeds. -/
def exManager : Manager := managerInit (fun _ => .ok ()) "/figs" 1

/-- A matplotlib artifact whose backend write succeeds. -/
def exMplArtifact : Artifact :=
  { ty := PyType.mplFigure, savefig := fun _ => .ok () }

/-- An artifact of a type matching no registered save strategy. -/
def exUnknownArtifact : Artifact :=
  { ty := PyType.other 0, savefig := fun _ => .ok () }

/-- A manager whose registry already holds figures under `"a"` and `"b"`. -/
def exManager2 : Manager :=
  { number := 1
    fig_dir := "/figs"
    fig_count := 3
    figure_registry := [("a", { number := 1, fig := exFigA }),
                        ("b", { number := 2, fig := exFigB })]
    savefigure_functions := [(PyType.mplFigure, saveMplFigure)]
    pytex_add_created := fun _ => .ok () }

/-- The figure produced by `saveFigure exManager "a" exMplArtifact none ".pdf"`. -/
def exSavedFig : Figure :=
  figureInit (makeFigureFilename exManager "a" none ".pdf" true) (some "a")

/-! ### List helper lemmas -/

theorem tf_getD_nil {α} (i : Nat) (d : α) : ([] : List α).getD i d = d := rfl

theorem tf_getD_append_left {α} (l₁ l₂ : List α) (d : α) :
    ∀ i, i < l₁.length → (l₁ ++ l₂).getD i d = l₁.getD i d := by
  induction l₁ with
  | nil => intro i hi; simp at hi
  | cons a t ih =>
    intro i hi
    cases i with
    | zero => rfl
    | succ j => exact ih j (by simpa using hi)

theorem tf_getD_append_right {α} (l₁ l₂ : List α) (d : α) :
    ∀ i, (l₁ ++ l₂).getD (l₁.length + i) d = l₂.getD i d := by
  induction l₁ with
  | nil => intro i; rw [List.nil_append, List.length_nil, Nat.zero_add]
  | cons a t ih =>
    intro i
    have : (a :: t).length + i = (t.length + i) + 1 := by
      simp [List.length_cons]; omega
    rw [this]
    exact ih i

theorem tf_getD_ge {α} (l : List α) (d : α) :
    ∀ i, l.length ≤ i → l.getD i d = d := by
  induction l with
  | nil => intro i _; rfl
  | cons a t ih =>
    intro i hi
    cases i with
    | zero => simp at hi
    | succ j => exact ih j (by simpa using hi)

theorem tf_getD_replicate {α} (a d : α) :
    ∀ n i, (List.replicate n a).getD i d = if i < n then a else d := by
  intro n
  induction n with
  | zero => intro i; simp [tf_getD_nil]
  | succ m ih =>
    intro i
    cases i with
    | zero => simp [List.replicate_succ]
    | succ j =>
      rw [List.replicate_succ]
      have : ((a :: List.replicate m a).getD (j + 1) d) = (List.replicate m a).getD j d := rfl
      rw [this, ih j]
      by_cases hj : j < m
      · simp [hj, Nat.succ_lt_succ hj]
      · have hj2 : ¬(j + 1 < m + 1) := by omega
        simp [hj, hj2]

theorem tf_getD_set_self {α} (l : List α) :
    ∀ (i : Nat) (x d : α), i < l.length → (l.set i x).getD i d = x := by
  induction l with
  | nil => intro i x d hi; simp at hi
  | cons a t ih =>
    intro i x d hi
    cases i with
    | zero => rfl
    | succ j => exact ih j x d (by simpa using hi)

theorem tf_getD_set_ne {α} (l : List α) :
    ∀ (i j : Nat) (x d : α), j ≠ i → (l.set i x).getD j d = l.getD j d := by
  induction l with
  | nil => intro i j x d _; rfl
  | cons a t ih =>
    intro i j x d hne
    cases i with
    | zero =>
      cases j with
      | zero => exact absurd rfl hne
      | succ j2 => rfl
    | succ i2 =>
      cases j with
      | zero => rfl
      | succ j2 => exact ih i2 j2 x d (fun hc => hne (by rw [hc]))

theorem tf_set_append {α} (l₁ : List α) (x : α) :
    ∀ (l₂ : List α) i, (l₁ ++ l₂).set (l₁.length + i) x = l₁ ++ l₂.set i x := by
  induction l₁ with
  | nil => intro l₂ i; rw [List.nil_append, List.length_nil, Nat.zero_add, List.nil_append]
  | cons a t ih =>
    intro l₂ i
    have h1 : (a :: t).length + i = (t.length + i) + 1 := by
      simp [List.length_cons]; omega
    rw [h1]
    show a :: ((t ++ l₂).set (t.length + i) x) = a :: (t ++ l₂.set i x)
    rw [ih l₂ i]

theorem tf_head_filter_range' (p : Nat → Bool) :
    ∀ (n s i : Nat), s ≤ i → i < s + n → p i = true →
      (∀ j, s ≤ j → j < i → p j = false) →
      ((List.range' s n).filter p).head? = some i := by
  intro n
  induction n with
  | zero => intro s i hsi hin _ _; omega
  | succ m ih =>
    intro s i hsi hin hp hmin
    have hr : List.range' s (m + 1) = s :: List.range' (s + 1) m := rfl
    rw [hr, List.filter_cons]
    rcases Nat.eq_or_lt_of_le hsi with heq | hlt
    · subst heq
      simp [hp]
    · have hps : p s = false := hmin s (Nat.le_refl s) hlt
      simp only [hps, Bool.false_eq_true, if_false]
      exact ih (s + 1) i hlt (by omega) hp (fun j hj1 hj2 => hmin j (by omega) hj2)

/-! ### Helper lemmas about the array model -/

theorem tf_emptyIndices_cons (h : Heap) (v : NDView) (i : Nat)
    (hi : i < viewSize v) (he : readFlat h v i = none)
    (hfirst : ∀ j, j < i → readFlat h v j ≠ none) :
    ∃ t, emptyIndices h v = i :: t := by
  have hh : (emptyIndices h v).head? = some i := by
    unfold emptyIndices
    rw [List.range_eq_range']
    refine tf_head_filter_range' _ (viewSize v) 0 i (Nat.zero_le i) (by omega) ?_ ?_
    · simp [he]
    · intro j _ hj
      have hne := hfirst j hj
      cases hc : readFlat h v j with
      | none => exact absurd hc hne
      | some f => simp [hc]
  cases hE : emptyIndices h v with
  | nil => rw [hE] at hh; simp at hh
  | cons a t =>
    rw [hE] at hh
    simp only [List.head?_cons, Option.some.injEq] at hh
    exact ⟨t, by rw [hh]⟩

theorem tf_emptyIndices_nil (h : Heap) (v : NDView)
    (hfull : ∀ i, i < viewSize v → readFlat h v i ≠ none) :
    emptyIndices h v = [] := by
  unfold emptyIndices
  apply List.filter_eq_nil_iff.mpr
  intro a ha
  have halt : a < viewSize v := List.mem_range.mp ha
  simp [Option.isNone_iff_eq_none, hfull a halt]

theorem tf_readFlat_append_blank (h : Heap) (n : Nat) (v : NDView) (i : Nat) :
    readFlat (h ++ [List.replicate n none]) v i = readFlat h v i := by
  unfold readFlat heapArr
  by_cases hi : i < viewSize v
  · simp only [hi, if_true]
    rcases Nat.lt_trichotomy v.base h.length with hb | hb | hb
    · rw [tf_getD_append_left h [List.replicate n none] [] v.base hb]
    · have h1 : (h ++ [List.replicate n (none : Slot)]).getD v.base [] =
          List.replicate n none := by
        rw [hb]
        simp
      have h2 : h.getD v.base ([] : List Slot) = [] :=
        tf_getD_ge h [] v.base (by omega)
      rw [h1, h2, tf_getD_replicate, tf_getD_nil]
      by_cases hlt : baseIndex v i < n <;> simp [hlt]
    · have h1 : (h ++ [List.replicate n (none : Slot)]).getD v.base [] = [] := by
        apply tf_getD_ge
        simp [List.length_append]; omega
      have h2 : h.getD v.base ([] : List Slot) = [] :=
        tf_getD_ge h [] v.base (by omega)
      rw [h1, h2]
  · simp [hi]

/-! ### Helper lemmas about the ordered registry -/

theorem tf_odGet_cons_pos (p : String × RegEntry) (t : List (String × RegEntry))
    (k : String) (h : p.1 = k) : odGet? (p :: t) k = some p.2 := by
  unfold odGet?
  rw [List.find?_cons_of_pos]
  · rfl
  · simpa using h

theorem tf_odGet_cons_neg (p : String × RegEntry) (t : List (String × RegEntry))
    (k : String) (h : ¬(p.1 = k)) : odGet? (p :: t) k = odGet? t k := by
  unfold odGet?
  rw [List.find?_cons_of_neg]
  simpa using h

theorem tf_odGet_map_self (k : String) (v : RegEntry) :
    ∀ l : List (String × RegEntry), (l.any fun p => p.1 == k) = true →
      odGet? (l.map (fun p => if p.1 = k then (k, v) else p)) k = some v := by
  intro l
  induction l with
  | nil => intro hA; simp at hA
  | cons p t ih =>
    intro hA
    by_cases hp : p.1 = k
    · simp only [List.map_cons, if_pos hp]
      exact tf_odGet_cons_pos (k, v) _ k rfl
    · have hA2 : (t.any fun q => q.1 == k) = true := by
        simp only [List.any_cons, Bool.or_eq_true] at hA
        rcases hA with h1 | h2
        · exact absurd (by simpa using h1) hp
        · exact h2
      simp only [List.map_cons, if_neg hp]
      rw [tf_odGet_cons_neg p _ k hp]
      exact ih hA2

theorem tf_odGet_append_self (k : String) (v : RegEntry) :
    ∀ l : List (String × RegEntry), (l.any fun p => p.1 == k) = false →
      odGet? (l ++ [(k, v)]) k = some v := by
  intro l
  induction l with
  | nil => intro _; exact tf_odGet_cons_pos (k, v) [] k rfl
  | cons p t ih =>
    intro hA
    simp only [List.any_cons, Bool.or_eq_false_iff] at hA
    have hp : ¬(p.1 = k) := by simpa using hA.1
    rw [List.cons_append, tf_odGet_cons_neg p _ k hp]
    exact ih hA.2

theorem tf_odGet_odSet_self (l : List (String × RegEntry)) (k : String) (v : RegEntry) :
    odGet? (odSet l k v) k = some v := by
  unfold odSet
  cases hA : (l.any fun p => p.1 == k) with
  | true => simp only [if_true]; exact tf_odGet_map_self k v l hA
  | false => simp only [Bool.false_eq_true, if_false]; exact tf_odGet_append_self k v l hA

theorem tf_odGet_map_ne (k kk : String) (v : RegEntry) (hne : kk ≠ k) :
    ∀ l : List (String × RegEntry),
      odGet? (l.map (fun p => if p.1 = k then (k, v) else p)) kk = odGet? l kk := by
  intro l
  induction l with
  | nil => rfl
  | cons p t ih =>
    by_cases hp : p.1 = k
    · have hp2 : ¬(p.1 = kk) := by rw [hp]; exact fun hc => hne hc.symm
      simp only [List.map_cons, if_pos hp]
      rw [tf_odGet_cons_neg (k, v) _ kk (fun hc => hne hc.symm),
          tf_odGet_cons_neg p t kk hp2]
      exact ih
    · simp only [List.map_cons, if_neg hp]
      by_cases hp3 : p.1 = kk
      · rw [tf_odGet_cons_pos p _ kk hp3, tf_odGet_cons_pos p t kk hp3]
      · rw [tf_odGet_cons_neg p _ kk hp3, tf_odGet_cons_neg p t kk hp3]
        exact ih

theorem tf_odGet_append_ne (k kk : String) (v : RegEntry) (hne : kk ≠ k) :
    ∀ l : List (String × RegEntry), odGet? (l ++ [(k, v)]) kk = odGet? l kk := by
  intro l
  induction l with
  | nil =>
    rw [List.nil_append, tf_odGet_cons_neg (k, v) [] kk (fun hc => hne hc.symm)]
  | cons p t ih =>
    by_cases hp : p.1 = kk
    · rw [List.cons_append, tf_odGet_cons_pos p _ kk hp, tf_odGet_cons_pos p t kk hp]
    · rw [List.cons_append, tf_odGet_cons_neg p _ kk hp, tf_odGet_cons_neg p t kk hp]
      exact ih

theorem tf_odGet_odSet_ne (l : List (String × RegEntry)) (k kk : String)
    (v : RegEntry) (hne : kk ≠ k) :
    odGet? (odSet l k v) kk = odGet? l kk := by
  unfold odSet
  cases hA : (l.any fun p => p.1 == k) with
  | true => simp only [if_true]; exact tf_odGet_map_ne k kk v hne l
  | false => simp only [Bool.false_eq_true, if_false]; exact tf_odGet_append_ne k kk v hne l

/-! ### Helper lemmas about the save dispatch loop -/

theorem tf_runSave_nomatch (fig : Artifact) :
    ∀ (fns : List (PyType × SaveFn)) (fname : String),
      (∀ p ∈ fns, issubclass fig.ty p.1 = false) →
      runSavefigureFunctions fns fig fname = .ok fname := by
  intro fns
  induction fns with
  | nil => intro fname _; rfl
  | cons p rest ih =>
    intro fname hno
    have hp : issubclass fig.ty p.1 = false := hno p (List.mem_cons_self p rest)
    unfold runSavefigureFunctions
    rw [hp]
    simp only [Bool.false_eq_true, if_false]
    exact ih fname (fun q hq => hno q (List.mem_cons_of_mem p hq))

/-! ### The `get_multifigure` population loop -/

/-- The figure slots produced by looking a list of references up in the
registry. -/
def registryFigures (m : Manager) (rs : List String) : List Slot :=
  rs.map (fun r => (odGet? m.figure_registry r).map (fun e => e.fig))

theorem tf_appendRefs_spec (m : Manager) :
    ∀ (rs : List String) (h : Heap) (mf : MultiFigure) (fs : List Slot),
      mf.view.base < h.length →
      mf.view.rowOff = 0 →
      heapArr h mf.view = fs ++ List.replicate (viewSize mf.view - fs.length) none →
      fs.length + rs.length ≤ viewSize mf.view →
      (∀ i, i < fs.length → (fs.getD i none).isSome) →
      (∀ r ∈ rs, (odGet? m.figure_registry r).isSome) →
      ∃ h2, appendRefs h m mf rs = .ok (h2, mf) ∧
        h2.length = h.length ∧
        heapArr h2 mf.view =
          (fs ++ registryFigures m rs) ++
            List.replicate (viewSize mf.view - (fs.length + rs.length)) none := by
  intro rs
  induction rs with
  | nil =>
    intro h mf fs _ _ harr _ _ _
    refine ⟨h, rfl, rfl, ?_⟩
    simpa [registryFigures] using harr
  | cons r rs ih =>
    intro h mf fs hb hoff harr hlen hsome hreg
    cases hg : odGet? m.figure_registry r with
    | none =>
      have hc := hreg r (List.mem_cons_self r rs)
      rw [hg] at hc
      simp at hc
    | some e =>
      have hflen : fs.length < viewSize mf.view := by
        simp only [List.length_cons] at hlen
        omega
      have hread_lt : ∀ j, j < fs.length → readFlat h mf.view j ≠ none := by
        intro j hj
        have hjs : j < viewSize mf.view := by omega
        have hbi : baseIndex mf.view j = j := by
          unfold baseIndex
          rw [hoff]
          omega
        unfold readFlat
        rw [if_pos hjs, harr, hbi, tf_getD_append_left _ _ _ j hj]
        have hS := hsome j hj
        intro hc
        rw [hc] at hS
        simp at hS
      have hread_eq : readFlat h mf.view fs.length = none := by
        have hbi : baseIndex mf.view fs.length = fs.length + 0 := by
          unfold baseIndex
          rw [hoff]
          omega
        unfold readFlat
        rw [if_pos hflen, harr, hbi, tf_getD_append_right, tf_getD_replicate]
        simp
      obtain ⟨t, hE⟩ := tf_emptyIndices_cons h mf.view fs.length hflen hread_eq hread_lt
      have hgf : getFigure m r = .ok e.fig := by
        unfold getFigure
        rw [hg]
      have happend : MultiFigure.append h mf (.figure e.fig) =
          .ok (writeFlat h mf.view fs.length e.fig) := by
        unfold MultiFigure.append
        rw [hE]
      have hbi2 : baseIndex mf.view fs.length = fs.length + 0 := by
        unfold baseIndex
        rw [hoff]
        omega
      have hk : viewSize mf.view - fs.length = (viewSize mf.view - (fs.length + 1)) + 1 := by
        omega
      have hnewArr : heapArr (writeFlat h mf.view fs.length e.fig) mf.view =
          (fs ++ [some e.fig]) ++
            List.replicate (viewSize mf.view - (fs.length + 1)) none := by
        unfold writeFlat heapArr
        rw [tf_getD_set_self h mf.view.base _ [] hb]
        show ((h.getD mf.view.base []).set (baseIndex mf.view fs.length) (some e.fig)) = _
        have harr2 : h.getD mf.view.base [] =
            fs ++ List.replicate (viewSize mf.view - fs.length) none := harr
        rw [harr2, hbi2, hk, List.replicate_succ, tf_set_append]
        show fs ++ (some e.fig :: List.replicate (viewSize mf.view - (fs.length + 1)) none) = _
        rw [List.append_assoc, List.singleton_append]
      have hIH := ih (writeFlat h mf.view fs.length e.fig) mf (fs ++ [some e.fig])
        (by unfold writeFlat; rw [List.length_set]; exact hb)
        hoff
        (by rw [hnewArr]; simp [List.length_append])
        (by
          have hfl : (fs ++ [some e.fig]).length = fs.length + 1 := by simp
          rw [hfl]
          simp only [List.length_cons] at hlen
          omega)
        (by
          intro i hi
          simp only [List.length_append, List.length_singleton] at hi
          by_cases hilt : i < fs.length
          · rw [tf_getD_append_left _ _ _ i hilt]
            exact hsome i hilt
          · have hieq : i = fs.length + 0 := by omega
            rw [hieq, tf_getD_append_right]
            simp)
        (fun r2 hr2 => hreg r2 (List.mem_cons_of_mem r hr2))
      obtain ⟨h2, happ2, hlen2, harr3⟩ := hIH
      refine ⟨h2, ?_, ?_, ?_⟩
      · show appendRefs h m mf (r :: rs) = .ok (h2, mf)
        unfold appendRefs
        rw [hgf]
        simp only []
        rw [happend]
        simp only []
        exact happ2
      · rw [hlen2]
        unfold writeFlat
        rw [List.length_set]
      · rw [harr3]
        have hcnt : viewSize mf.view - ((fs ++ [some e.fig]).length + rs.length) =
            viewSize mf.view - (fs.length + (r :: rs).length) := by
          simp only [List.length_append, List.length_cons, List.length_nil]
          omega
        rw [hcnt]
        have hrf : registryFigures m (r :: rs) = some e.fig :: registryFigures m rs := by
          unfold registryFigures
          rw [List.map_cons, hg]
          rfl
        rw [hrf, List.append_assoc fs [some e.fig] (registryFigures m rs),
          List.singleton_append]

/-! ### Claim theorems -/

/-- C7: for every `Figure` constructed with a supplied (truthy) reference
string, the stored reference equals the supplied string with every
underscore replaced by a hyphen, and the label is `fig:` followed by the
stored reference. -/
theorem figure_reference_label (file_name r : String) (hr : r ≠ "") :
    (figureInit file_name (some r)).reference = replaceUnderscores r ∧
    (figureInit file_name (some r)).label =
      "fig:" ++ (figureInit file_name (some r)).reference := by
  constructor
  · simp [figureInit, hr]
  · simp [figureInit, hr]

/-- Witness for C7 at a concrete underscored reference. -/
theorem figure_reference_label_witness :
    (figureInit "/figs/f.pdf" (some "a_b")).reference = replaceUnderscores "a_b" ∧
    (figureInit "/figs/f.pdf" (some "a_b")).label =
      "fig:" ++ (figureInit "/figs/f.pdf" (some "a_b")).reference :=
  figure_reference_label "/figs/f.pdf" "a_b" (by decide)

/-- C6: `make_figure_filename` with no explicit name synthesizes
`Chapter<number>-Figure<fig_count>-<ref><fext>` from the manager's number
and its current (not yet incremented) counter; with `number = 1`,
`fig_count = 1` and the default extension `.pdf`, reference `alpha` gives
`Chapter1-Figure1-alpha.pdf`; `save_figure` passes `fullpath`, which joins
the figure directory in front of the synthesized name. -/
theorem make_figure_filename_synthesis (m : Manager) (ref fext : String) :
    (makeFigureFilename m ref none fext false =
      "Chapter" ++ toString m.number ++ "-Figure" ++ toString m.fig_count
        ++ "-" ++ ref ++ fext) ∧
    (m.number = 1 → m.fig_count = 1 →
      makeFigureFilename m "alpha" none ".pdf" false = "Chapter1-Figure1-alpha.pdf") ∧
    (makeFigureFilename m ref none fext true =
      osPathJoin m.fig_dir (makeFigureFilename m ref none fext false)) := by
  refine ⟨rfl, ?_, rfl⟩
  intro h1 h2
  unfold makeFigureFilename
  rw [h1, h2]
  rfl

/-- Witness for C6 on a fresh manager with `number = 1`. -/
theorem make_figure_filename_synthesis_witness :
    makeFigureFilename exManager "alpha" none ".pdf" false = "Chapter1-Figure1-alpha.pdf" :=
  (make_figure_filename_synthesis exManager "alpha" ".pdf").2.1 rfl rfl

/-- C9: `MultiFigure.__len__` evaluates `self.figures.size()`, a call of the
integer `size` attribute, so taking the length raises `TypeError` on every
instance. -/
theorem mf_len_always_raises (m : MultiFigure) :
    MultiFigure.lenPy m = .error (.typeError "int object is not callable") := rfl

/-- C3: on a grid of flat size `N`, the slice `[0:k]` with `k < N` is not a
continuation and clears the caption; the slice `[k:N]` with `k > 0` is a
continuation and keeps the caption; the slice `[0:N]` keeps the caption and
is not a continuation. -/
theorem mf_slice_caption_continuation (h : Heap) (m : MultiFigure) (k : Nat) :
    (k < viewSize m.view →
      (sliceMF h m (some 0) (some k)).2.continuation = false ∧
      (sliceMF h m (some 0) (some k)).2.caption = "") ∧
    (0 < k →
      (sliceMF h m (some k) (some (viewSize m.view))).2.continuation = true ∧
      (sliceMF h m (some k) (some (viewSize m.view))).2.caption = m.caption) ∧
    ((sliceMF h m (some 0) (some (viewSize m.view))).2.continuation = false ∧
      (sliceMF h m (some 0) (some (viewSize m.view))).2.caption = m.caption) := by
  refine ⟨?_, ?_, ?_⟩
  · intro hk
    have hne : ¬(k = viewSize m.view) := by omega
    constructor
    · simp [sliceMF, MultiFigure.init, MultiFigure.continuation, sliceStartsAtZero]
    · simp [sliceMF, sliceStopsAtEnd, hne]
  · intro hk
    have hne : ¬(k = 0) := by omega
    constructor
    · simp [sliceMF, MultiFigure.init, MultiFigure.continuation, sliceStartsAtZero, hne]
    · simp [sliceMF, sliceStopsAtEnd]
  · constructor
    · simp [sliceMF, MultiFigure.init, MultiFigure.continuation, sliceStartsAtZero]
    · simp [sliceMF, sliceStopsAtEnd]

/-- Witness for C3 on the concrete 2×2 grid, at `k = 2`. -/
theorem mf_slice_caption_continuation_witness :
    ((sliceMF exHeap4 exMF22 (some 0) (some 2)).2.continuation = false ∧
      (sliceMF exHeap4 exMF22 (some 0) (some 2)).2.caption = "") ∧
    ((sliceMF exHeap4 exMF22 (some 2) (some 4)).2.continuation = true ∧
      (sliceMF exHeap4 exMF22 (some 2) (some 4)).2.caption = exMF22.caption) :=
  ⟨(mf_slice_caption_continuation exHeap4 exMF22 2).1 (by decide),
   (mf_slice_caption_continuation exHeap4 exMF22 2).2.1 (by decide)⟩

/-- C4: `append` raises `TypeError` for a non-Figure argument, raises
`ValueError` when no empty slot remains (in particular once all
`nrows*ncols` slots are filled), and otherwise writes the figure into the
first empty row-major flat slot, leaving every other slot unchanged. -/
theorem mf_append_spec (h : Heap) (m : MultiFigure) :
    (∀ n, MultiFigure.append h m (.other n) =
      .error (.typeError "Only texfigure.Figures can be appended to a MultiFigure")) ∧
    ((∀ i, i < viewSize m.view → readFlat h m.view i ≠ none) →
      ∀ f, MultiFigure.append h m (.figure f) =
        .error (.valueError "This MultiFigure is full")) ∧
    (∀ f i, m.view.base < h.length →
      baseIndex m.view (viewSize m.view) ≤ (heapArr h m.view).length →
      i < viewSize m.view →
      readFlat h m.view i = none →
      (∀ j, j < i → readFlat h m.view j ≠ none) →
      MultiFigure.append h m (.figure f) = .ok (writeFlat h m.view i f) ∧
      readFlat (writeFlat h m.view i f) m.view i = some f ∧
      ∀ j, j < viewSize m.view → j ≠ i →
        readFlat (writeFlat h m.view i f) m.view j = readFlat h m.view j) := by
  refine ⟨fun n => rfl, ?_, ?_⟩
  · intro hfull f
    unfold MultiFigure.append
    rw [tf_emptyIndices_nil h m.view hfull]
  · intro f i hb hvlen hi hempty hfirst
    obtain ⟨t, hE⟩ := tf_emptyIndices_cons h m.view i hi hempty hfirst
    have hbi : baseIndex m.view i < (heapArr h m.view).length := by
      unfold baseIndex at hvlen ⊢
      unfold viewSize at hvlen hi
      omega
    refine ⟨?_, ?_, ?_⟩
    · unfold MultiFigure.append
      rw [hE]
    · unfold readFlat
      rw [if_pos hi]
      unfold heapArr writeFlat
      rw [tf_getD_set_self h m.view.base _ [] hb]
      unfold heapArr
      exact tf_getD_set_self _ _ _ _ hbi
    · intro j hj hne
      unfold readFlat
      rw [if_pos hj, if_pos hj]
      unfold heapArr writeFlat
      rw [tf_getD_set_self h m.view.base _ [] hb]
      unfold heapArr
      apply tf_getD_set_ne
      unfold baseIndex
      omega

/-- Witness for C4: appending to the concrete half-filled 2×1 grid lands in
flat slot 1. -/
theorem mf_append_spec_witness :
    MultiFigure.append exHeap21 exMF21 (.figure exFigB) =
      .ok (writeFlat exHeap21 exMF21.view 1 exFigB) ∧
    readFlat (writeFlat exHeap21 exMF21.view 1 exFigB) exMF21.view 1 = some exFigB :=
  ⟨((mf_append_spec exHeap21 exMF21).2.2 exFigB 1 (by decide) (by decide) (by decide)
      (by decide) (by decide)).1,
   ((mf_append_spec exHeap21 exMF21).2.2 exFigB 1 (by decide) (by decide) (by decide)
      (by decide) (by decide)).2.1⟩

theorem tf_getD_map {α β} (f : α → β) (d : β) :
    ∀ (l : List α) (i : Nat) (hi : i < l.length),
      (l.map f).getD i d = f (l.get ⟨i, hi⟩) := by
  intro l
  induction l with
  | nil => intro i hi; simp at hi
  | cons a t ih =>
    intro i hi
    cases i with
    | zero => rfl
    | succ j => exact ih j (by simpa using hi)

/-- C1 counterexample: on a fresh manager, saving an artifact whose type
matches no registered save strategy does not fail at all — no
`UnsupportedArtifactType` error exists in the code.  The call returns
normally, registers a Figure under the reference, and increments the
counter from 1 to 2. -/
theorem save_figure_unknown_type_no_error_cex :
    (saveFigure exManager "x" exUnknownArtifact none ".pdf").2.isOk = true ∧
    (saveFigure exManager "x" exUnknownArtifact none ".pdf").1.fig_count = 2 ∧
    (odGet? (saveFigure exManager "x" exUnknownArtifact none ".pdf").1.figure_registry
      "x").isSome = true :=
  ⟨rfl, rfl, rfl⟩

/-- C1 (amended): when no registered save strategy matches the artifact's
type, `save_figure` raises nothing: the dispatch loop runs no strategy, the
synthesized target path is used unchanged for the Figure, and — provided
the external `pytex.add_created` notification succeeds — the Figure is
registered under the pre-increment counter value and the counter is
incremented. -/
theorem save_figure_unknown_type_completes (m : Manager) (ref : String)
    (fig : Artifact) (fname : Option String) (fext : String)
    (hnomatch : ∀ p ∈ m.savefigure_functions, issubclass fig.ty p.1 = false)
    (hpytex : ∀ s, m.pytex_add_created s = .ok ()) :
    saveFigure m ref fig fname fext =
      ({ m with
          figure_registry := odSet m.figure_registry ref
            { number := m.fig_count
              fig := figureInit (makeFigureFilename m ref fname fext true) (some ref) }
          fig_count := m.fig_count + 1 },
       .ok (figureInit (makeFigureFilename m ref fname fext true) (some ref))) := by
  unfold saveFigure addFigure
  rw [tf_runSave_nomatch fig m.savefigure_functions _ hnomatch]
  simp only [hpytex]

/-- Witness for C1's amended statement on the concrete fresh manager. -/
theorem save_figure_unknown_type_completes_witness :
    saveFigure exManager "x" exUnknownArtifact none ".pdf" =
      ({ exManager with
          figure_registry := odSet exManager.figure_registry "x"
            { number := exManager.fig_count
              fig := figureInit (makeFigureFilename exManager "x" none ".pdf" true) (some "x") }
          fig_count := exManager.fig_count + 1 },
       .ok (figureInit (makeFigureFilename exManager "x" none ".pdf" true) (some "x"))) :=
  save_figure_unknown_type_completes exManager "x" exUnknownArtifact none ".pdf"
    (by decide) (fun _ => rfl)

/-- C5: every successful `save_figure` call increments `fig_count` by
exactly one and adds or overwrites exactly the registry entry for `ref`,
recording the pre-increment counter value; every failing call — the save
strategy raising or the external `pytex.add_created` call raising — leaves
the manager (counter and registry) unchanged. -/
theorem save_figure_counter_registry (m : Manager) (ref : String)
    (fig : Artifact) (fname : Option String) (fext : String) :
    (∀ F, (saveFigure m ref fig fname fext).2 = .ok F →
      (saveFigure m ref fig fname fext).1.fig_count = m.fig_count + 1 ∧
      odGet? (saveFigure m ref fig fname fext).1.figure_registry ref =
        some { number := m.fig_count, fig := F } ∧
      ∀ k, k ≠ ref →
        odGet? (saveFigure m ref fig fname fext).1.figure_registry k =
          odGet? m.figure_registry k) ∧
    (∀ e, (saveFigure m ref fig fname fext).2 = .error e →
      (saveFigure m ref fig fname fext).1 = m) := by
  cases hrun : runSavefigureFunctions m.savefigure_functions fig
      (makeFigureFilename m ref fname fext true) with
  | error e =>
    have hs : saveFigure m ref fig fname fext = (m, .error e) := by
      unfold saveFigure
      rw [hrun]
    rw [hs]
    constructor
    · intro F hF
      exact Except.noConfusion hF
    · intro e2 _
      rfl
  | ok fn2 =>
    cases hpy : m.pytex_add_created (figureInit fn2 (some ref)).file_name with
    | error e =>
      have hs : saveFigure m ref fig fname fext = (m, .error e) := by
        unfold saveFigure addFigure
        simp only [hrun, hpy]
      rw [hs]
      constructor
      · intro F hF
        exact Except.noConfusion hF
      · intro e2 _
        rfl
    | ok u =>
      cases u
      have hs : saveFigure m ref fig fname fext =
          ({ m with
              figure_registry := odSet m.figure_registry ref
                { number := m.fig_count, fig := figureInit fn2 (some ref) }
              fig_count := m.fig_count + 1 },
           .ok (figureInit fn2 (some ref))) := by
        unfold saveFigure addFigure
        simp only [hrun, hpy]
      rw [hs]
      constructor
      · intro F hF
        have hFeq : figureInit fn2 (some ref) = F := by
          injection hF
        subst hFeq
        refine ⟨rfl, ?_, ?_⟩
        · exact tf_odGet_odSet_self m.figure_registry ref _
        · intro k hk
          exact tf_odGet_odSet_ne m.figure_registry ref k _ hk
      · intro e2 he2
        exact Except.noConfusion he2

/-- Witness for C5: a successful concrete save moves the counter from 1 to
2 and records sequence number 1 for the saved figure. -/
theorem save_figure_counter_registry_witness :
    (saveFigure exManager "a" exMplArtifact none ".pdf").1.fig_count = 2 ∧
    odGet? (saveFigure exManager "a" exMplArtifact none ".pdf").1.figure_registry "a" =
      some { number := 1, fig := exSavedFig } := by
  have h := (save_figure_counter_registry exManager "a" exMplArtifact none ".pdf").1
    exSavedFig rfl
  exact ⟨h.1, h.2.1⟩

/-- C2 counterexample: on the fully occupied 2×2 grid, the claim says the
slice `[0:1]` contains exactly the figure at flat position 0 — a grid of
flat size 1.  The code instead slices row 0: the result has flat size 2 and
also contains the figure stored at flat position 1 of the source. -/
theorem mf_slice_flat_index_cex :
    viewSize (sliceMF exHeap4 exMF22 (some 0) (some 1)).2.view = 2 ∧
    readFlat (sliceMF exHeap4 exMF22 (some 0) (some 1)).1
      (sliceMF exHeap4 exMF22 (some 0) (some 1)).2.view 1 = some exFigB :=
  ⟨rfl, rfl⟩

/-- C2 (amended): slicing selects whole rows, not flat positions.  For
`a ≤ b ≤ nrows` the slice `[a:b]` is a `(b-a) × ncols` grid whose flat
entries are the source's flat entries starting at offset `a * ncols`; the
claimed flat-index semantics therefore holds exactly when `ncols = 1`. -/
theorem mf_slice_selects_rows (h : Heap) (m : MultiFigure) (a b : Nat)
    (hab : a ≤ b) (hb : b ≤ m.view.nrows) :
    (sliceMF h m (some a) (some b)).2.view.nrows = b - a ∧
    (sliceMF h m (some a) (some b)).2.view.ncols = m.view.ncols ∧
    ∀ j, j < (b - a) * m.view.ncols →
      readFlat (sliceMF h m (some a) (some b)).1
        (sliceMF h m (some a) (some b)).2.view j =
      readFlat h m.view (a * m.view.ncols + j) := by
  have hea : min a m.view.nrows = a := Nat.min_eq_left (le_trans hab hb)
  have heb : min b m.view.nrows = b := Nat.min_eq_left hb
  have hview : (sliceMF h m (some a) (some b)).2.view =
      { base := m.view.base, rowOff := m.view.rowOff + a,
        nrows := b - a, ncols := m.view.ncols } := by
    show ({ base := m.view.base,
            rowOff := m.view.rowOff + min a m.view.nrows,
            nrows := min b m.view.nrows - min a m.view.nrows,
            ncols := m.view.ncols } : NDView) = _
    rw [hea, heb]
  have hheap : (sliceMF h m (some a) (some b)).1 =
      h ++ [List.replicate ((b - a) * m.view.ncols) none] := by
    show h ++ [List.replicate
        ((min b m.view.nrows - min a m.view.nrows) * m.view.ncols) none] = _
    rw [hea, heb]
  refine ⟨by rw [hview], by rw [hview], ?_⟩
  intro j hj
  rw [hview, hheap, tf_readFlat_append_blank]
  have h1 : a * m.view.ncols + j < m.view.nrows * m.view.ncols := by
    have h2 : a * m.view.ncols + (b - a) * m.view.ncols = b * m.view.ncols := by
      rw [← Nat.add_mul]
      congr 1
      omega
    have h3 : b * m.view.ncols ≤ m.view.nrows * m.view.ncols :=
      Nat.mul_le_mul_right _ hb
    omega
  have h4 : (m.view.rowOff + a) * m.view.ncols + j =
      m.view.rowOff * m.view.ncols + (a * m.view.ncols + j) := by
    rw [Nat.add_mul]
    omega
  unfold readFlat viewSize baseIndex heapArr
  rw [if_pos hj, if_pos h1]
  show (h.getD m.view.base []).getD ((m.view.rowOff + a) * m.view.ncols + j) none = _
  rw [h4]

/-- Witness for C2's amended statement: slicing `[1:2]` of the occupied 2×2
grid gives one row whose flat slot 0 is the source's flat slot 2. -/
theorem mf_slice_selects_rows_witness :
    (sliceMF exHeap4 exMF22 (some 1) (some 2)).2.view.nrows = 2 - 1 ∧
    readFlat (sliceMF exHeap4 exMF22 (some 1) (some 2)).1
      (sliceMF exHeap4 exMF22 (some 1) (some 2)).2.view 0 =
      readFlat exHeap4 exMF22.view (1 * exMF22.view.ncols + 0) := by
  have h := mf_slice_selects_rows exHeap4 exMF22 1 2 (by decide) (by decide)
  exact ⟨h.1, h.2.2 0 (by decide)⟩

theorem tf_readFlat_replicate (h : Heap) (v : NDView) (n i : Nat)
    (harr : heapArr h v = List.replicate n none) : readFlat h v i = none := by
  unfold readFlat
  rw [harr, tf_getD_replicate]
  by_cases h1 : i < viewSize v <;> by_cases h2 : baseIndex v i < n <;> simp [h1, h2]

theorem tf_readFlat_writeFlat (h : Heap) (w v : NDView) (iw iv : Nat) (f : Figure)
    (hbase : w.base = v.base) (hblt : v.base < h.length)
    (hidx : baseIndex w iw = baseIndex v iv)
    (hin : iv < viewSize v)
    (hlen : baseIndex v iv < (heapArr h v).length) :
    readFlat (writeFlat h w iw f) v iv = some f := by
  unfold readFlat writeFlat heapArr
  unfold heapArr at hlen
  rw [if_pos hin, hbase, hidx]
  rw [tf_getD_set_self h v.base _ [] hblt]
  exact tf_getD_set_self _ _ _ _ hlen

/-- C8: `get_multifigure` raises `ValueError` when given more references
than grid slots; otherwise, with every reference registered, it returns a
MultiFigure whose first `len(refs)` row-major slots hold the registered
figures in list order and whose remaining slots are empty. -/
theorem get_multifigure_spec (h : Heap) (m : Manager) (nrows ncols : Nat)
    (refs : List String) (reference : String) :
    (refs.length > nrows * ncols →
      getMultifigure h m nrows ncols refs reference = .error (.valueError
        "You can not specify more references than number of spaces in your multifigure grid.")) ∧
    (refs.length ≤ nrows * ncols →
      (∀ r ∈ refs, (odGet? m.figure_registry r).isSome) →
      ∃ h2 mf, getMultifigure h m nrows ncols refs reference = .ok (h2, mf) ∧
        mf.view.nrows = nrows ∧ mf.view.ncols = ncols ∧
        (∀ i, (hi : i < refs.length) →
          readFlat h2 mf.view i =
            (odGet? m.figure_registry (refs.get ⟨i, hi⟩)).map (fun e => e.fig)) ∧
        (∀ j, refs.length ≤ j → j < nrows * ncols → readFlat h2 mf.view j = none)) := by
  constructor
  · intro hgt
    unfold getMultifigure
    rw [if_pos hgt]
  · intro hle hreg
    have hvs : viewSize (MultiFigure.init h nrows ncols reference false).2.view
        = nrows * ncols := rfl
    have harr0 : heapArr (MultiFigure.init h nrows ncols reference false).1
        (MultiFigure.init h nrows ncols reference false).2.view =
        List.replicate (nrows * ncols) none := by
      unfold heapArr
      show (h ++ [List.replicate (nrows * ncols) none]).getD h.length [] = _
      simp
    obtain ⟨h2, happ, hlen2, harr2⟩ := tf_appendRefs_spec m refs
      (MultiFigure.init h nrows ncols reference false).1
      (MultiFigure.init h nrows ncols reference false).2
      []
      (by
        show h.length < (h ++ [List.replicate (nrows * ncols) (none : Slot)]).length
        simp)
      rfl
      (by rw [harr0, hvs]; simp)
      (by rw [hvs]; simpa using hle)
      (fun i hi => absurd hi (by simp))
      hreg
    simp only [List.nil_append, List.length_nil, Nat.zero_add] at harr2
    rw [hvs] at harr2
    have hrf_len : (registryFigures m refs).length = refs.length := by
      unfold registryFigures
      rw [List.length_map]
    refine ⟨h2, (MultiFigure.init h nrows ncols reference false).2, ?_, rfl, rfl, ?_, ?_⟩
    · unfold getMultifigure
      rw [if_neg (by omega)]
      exact happ
    · intro i hi
      have his : i < nrows * ncols := by omega
      have hbi : baseIndex (MultiFigure.init h nrows ncols reference false).2.view i
          = i := by
        show 0 * ncols + i = i
        omega
      unfold readFlat
      rw [hvs, if_pos his, harr2, hbi,
        tf_getD_append_left _ _ _ i (by rw [hrf_len]; exact hi)]
      unfold registryFigures
      exact tf_getD_map _ _ refs i hi
    · intro j hj1 hj2
      have hbj : baseIndex (MultiFigure.init h nrows ncols reference false).2.view j
          = j := by
        show 0 * ncols + j = j
        omega
      unfold readFlat
      rw [hvs, if_pos hj2, harr2, hbj]
      have hj3 : j = (registryFigures m refs).length + (j - refs.length) := by
        rw [hrf_len]
        omega
      rw [hj3, tf_getD_append_right, tf_getD_replicate]
      simp

/-- Witness for C8: the round-trip on a registry holding `a` and `b`, and
the overfull request failing. -/
theorem get_multifigure_spec_witness :
    (getMultifigure [] exManager2 2 2 ["a", "b"] "mm").isOk = true ∧
    getMultifigure [] exManager2 1 2 ["a", "b", "c"] "x" = .error (.valueError
      "You can not specify more references than number of spaces in your multifigure grid.") := by
  constructor
  · obtain ⟨h2, mf, heq, _⟩ :=
      (get_multifigure_spec [] exManager2 2 2 ["a", "b"] "mm").2 (by decide) (by decide)
    rw [heq]
    rfl
  · exact (get_multifigure_spec [] exManager2 1 2 ["a", "b", "c"] "x").1 (by decide)

/-- C10: a sliced MultiFigure shares its backing array with the source.
Starting from a freshly constructed empty `nr × nc` grid, slicing rows
`[a:b]` and appending a figure to the slice writes through the shared
array: flat slot `a * nc` of the ORIGINAL grid was empty right after the
slice and holds the appended figure afterwards. -/
theorem mf_slice_shares_backing (h : Heap) (nr nc a b : Nat) (ref : String)
    (f : Figure) (h3 : Heap) (ha : a < nr) (hab : a < b) (hnc : 1 ≤ nc)
    (happ : MultiFigure.append
        (sliceMF (MultiFigure.init h nr nc ref false).1
          (MultiFigure.init h nr nc ref false).2 (some a) (some b)).1
        (sliceMF (MultiFigure.init h nr nc ref false).1
          (MultiFigure.init h nr nc ref false).2 (some a) (some b)).2
        (.figure f) = .ok h3) :
    readFlat h3 (MultiFigure.init h nr nc ref false).2.view (a * nc) = some f ∧
    readFlat (sliceMF (MultiFigure.init h nr nc ref false).1
        (MultiFigure.init h nr nc ref false).2 (some a) (some b)).1
      (MultiFigure.init h nr nc ref false).2.view (a * nc) = none := by
  have hea : min a nr = a := Nat.min_eq_left (Nat.le_of_lt ha)
  have hamin : a < min b nr := lt_min hab ha
  have hq1 : (sliceMF (MultiFigure.init h nr nc ref false).1
      (MultiFigure.init h nr nc ref false).2 (some a) (some b)).1 =
      (h ++ [List.replicate (nr * nc) none])
        ++ [List.replicate ((min b nr - a) * nc) none] := by
    show (h ++ [List.replicate (nr * nc) none])
        ++ [List.replicate ((min b nr - min a nr) * nc) none] = _
    rw [hea]
  have hq2 : (sliceMF (MultiFigure.init h nr nc ref false).1
      (MultiFigure.init h nr nc ref false).2 (some a) (some b)).2.view =
      { base := h.length, rowOff := 0 + a, nrows := min b nr - a, ncols := nc } := by
    show ({ base := h.length,
            rowOff := 0 + min a nr,
            nrows := min b nr - min a nr,
            ncols := nc } : NDView) = _
    rw [hea]
  have hpv : (MultiFigure.init h nr nc ref false).2.view =
      { base := h.length, rowOff := 0, nrows := nr, ncols := nc } := rfl
  have hbarr : ((h ++ [List.replicate (nr * nc) none])
      ++ [List.replicate ((min b nr - a) * nc) none]).getD h.length ([] : List Slot) =
      List.replicate (nr * nc) none := by
    rw [tf_getD_append_left _ _ _ h.length (by simp)]
    simp
  have hlt : a * nc < nr * nc := by
    have h1 : (a + 1) * nc ≤ nr * nc := Nat.mul_le_mul_right _ (by omega)
    have h2 : (a + 1) * nc = a * nc + nc := by rw [Nat.add_mul]; omega
    omega
  have hpos : (0 : Nat) < (min b nr - a) * nc := Nat.mul_pos (by omega) (by omega)
  have hread0 : readFlat ((h ++ [List.replicate (nr * nc) none])
      ++ [List.replicate ((min b nr - a) * nc) none])
      { base := h.length, rowOff := 0 + a, nrows := min b nr - a, ncols := nc } 0
      = none := by
    apply tf_readFlat_replicate _ _ (nr * nc)
    unfold heapArr
    exact hbarr
  obtain ⟨t, hE⟩ := tf_emptyIndices_cons
    ((h ++ [List.replicate (nr * nc) none]) ++ [List.replicate ((min b nr - a) * nc) none])
    { base := h.length, rowOff := 0 + a, nrows := min b nr - a, ncols := nc }
    0 hpos hread0 (fun j hj => absurd hj (Nat.not_lt_zero j))
  have happW : MultiFigure.append
      (sliceMF (MultiFigure.init h nr nc ref false).1
        (MultiFigure.init h nr nc ref false).2 (some a) (some b)).1
      (sliceMF (MultiFigure.init h nr nc ref false).1
        (MultiFigure.init h nr nc ref false).2 (some a) (some b)).2
      (.figure f) =
      .ok (writeFlat
        ((h ++ [List.replicate (nr * nc) none])
          ++ [List.replicate ((min b nr - a) * nc) none])
        { base := h.length, rowOff := 0 + a, nrows := min b nr - a, ncols := nc }
        0 f) := by
    unfold MultiFigure.append
    rw [hq1, hq2, hE]
  have h3eq : h3 = writeFlat
      ((h ++ [List.replicate (nr * nc) none])
        ++ [List.replicate ((min b nr - a) * nc) none])
      { base := h.length, rowOff := 0 + a, nrows := min b nr - a, ncols := nc }
      0 f := by
    have hWk := happW.symm.trans happ
    injection hWk with hWk2
    exact hWk2.symm
  constructor
  · rw [h3eq, hpv]
    apply tf_readFlat_writeFlat
    · rfl
    · simp [List.length_append]
    · show (0 + a) * nc + 0 = 0 * nc + a * nc
      simp
    · exact hlt
    · show 0 * nc + a * nc < (heapArr _ _).length
      unfold heapArr
      rw [hbarr, List.length_replicate]
      simpa using hlt
  · rw [hq1, hpv]
    apply tf_readFlat_replicate _ _ (nr * nc)
    unfold heapArr
    exact hbarr

/-- Witness for C10: on a fresh 2×2 grid, appending to the slice `[1:2]`
fills flat slot 2 of the original grid. -/
theorem mf_slice_shares_backing_witness :
    readFlat (writeFlat
      (sliceMF (MultiFigure.init [] 2 2 "m" false).1
        (MultiFigure.init [] 2 2 "m" false).2 (some 1) (some 2)).1
      (sliceMF (MultiFigure.init [] 2 2 "m" false).1
        (MultiFigure.init [] 2 2 "m" false).2 (some 1) (some 2)).2.view 0 exFigA)
      (MultiFigure.init [] 2 2 "m" false).2.view (1 * 2) = some exFigA ∧
    readFlat (sliceMF (MultiFigure.init [] 2 2 "m" false).1
        (MultiFigure.init [] 2 2 "m" false).2 (some 1) (some 2)).1
      (MultiFigure.init [] 2 2 "m" false).2.view (1 * 2) = none :=
  mf_slice_shares_backing [] 2 2 1 2 "m" exFigA
    (writeFlat
      (sliceMF (MultiFigure.init [] 2 2 "m" false).1
        (MultiFigure.init [] 2 2 "m" false).2 (some 1) (some 2)).1
      (sliceMF (MultiFigure.init [] 2 2 "m" false).1
        (MultiFigure.init [] 2 2 "m" false).2 (some 1) (some 2)).2.view 0 exFigA)
    (by decide) (by decide) (by decide) (by rfl)
